import Mathlib

/-!
# Verification of the data-dump ingestion pipeline

Shallow embedding of the staged ingestion pipeline implemented in the
repository (function names follow the source: `processDataDump`,
`downloadFile`, `extractTarGz`, `setupDatabase`, `parseAndInsertCSV`).

Modelling notes, justified against the runtime semantics of the stack the
source uses (Node.js streams, the fast-csv parser, Knex over SQLite):

* Promises. Every component returns a `Promise<void>`. We model the
  observable outcome with `POutcome`: `resolved`, `rejected e` (the promise
  settles with error `e`), and `crashed e` — the error was emitted on a
  stream that has no error listener. In Node, emitting an "error" event
  with no listener throws it as an uncaught exception, which terminates the
  process; the promise itself never settles. The source attaches its error
  listener only to the LAST stream of each `pipe` chain, and `pipe` does
  not forward error events, so errors of earlier pipeline stages surface as
  `crashed`, not `rejected`.
* CSV parsing (fast-csv, option headers:true). The first line is the
  header; each later line becomes a row object mapping each header name to
  the raw string field at the same position. A record with MORE fields than
  the header makes the parser emit an error event; a record with FEWER
  fields yields a row object in which the uncovered header names are
  undefined (modelled as `none`).
* SQLite via Knex. `dropTableIfExists` never fails on an absent table.
  Every declared column is NOT NULL; SQLite enforces NOT NULL, but because
  of type affinity it performs NO value validation: any string is accepted
  in a `date` or `integer` column. `knex.batchInsert(t, rows, 100)` splits
  the rows into consecutive chunks of at most 100 and issues one insert
  statement per chunk; a failing chunk statement is atomic (its rows are
  not inserted) while previously inserted chunks remain.
* Filesystems and the store are modelled as association lists with
  first-match lookup.
-/

namespace Pipeline

/-- Errors that can surface from a pipeline stage. -/
inductive Err where
  /-- HTTPS connection failure (emitted on the client request object). -/
  | connError : Err
  /-- Filesystem failure of `fsPromises.mkdir` (not `EEXIST`). -/
  | fsError (msg : String) : Err
  /-- Error emitted by the gunzip stream (corrupt gzip data). -/
  | gunzipError (msg : String) : Err
  /-- Error emitted by the tar-extraction stream (corrupt tar data). -/
  | tarError (msg : String) : Err
  /-- `ENOENT`: a read stream was opened on a missing file path. -/
  | enoent (filePath : String) : Err
  /-- Error emitted by the fast-csv parser stream
      (e.g. a record with more fields than the header). -/
  | csvError (msg : String) : Err
  /-- SQLite "NOT NULL constraint failed" on the named column. -/
  | notNullViolation (col : String) : Err
  /-- Insert into a table that does not exist. -/
  | noSuchTable (t : String) : Err
  /-- Store-level DDL failure (e.g. database file unreachable). -/
  | dbError (msg : String) : Err
deriving Repr, DecidableEq

/-- Observable outcome of one `Promise<void>`-returning component call.
`crashed e` means: `e` was emitted as an "error" event on a stream with no
error listener, so the promise never settles and the Node process is
terminated by the uncaught exception carrying `e`. -/
inductive POutcome where
  | resolved : POutcome
  | rejected (e : Err) : POutcome
  | crashed (e : Err) : POutcome
deriving Repr, DecidableEq

/-- A tabular (CSV) file: the header line, and the data records
(one list of raw string fields per subsequent line). -/
structure CSVFile where
  header : List String
  records : List (List String)
deriving Repr, DecidableEq

/-- A parsed row object: each header name mapped to the raw string field at
the same position, `none` where the record had no field (undefined). -/
abbrev Row := List (String × Option String)

/-- The extracted working tree: relative file path ↦ tabular file. -/
abbrev Tree := List (String × CSVFile)

/-- First-match lookup in the extracted tree. -/
def lookupF : Tree → String → Option CSVFile
  | [], _ => none
  | (q, f) :: rest, p => if q = p then some f else lookupF rest p

/-- fast-csv header mapping: pair each header name with the record field at
the same position; header names beyond the record length map to `none`. -/
def headerZip : List String → List String → Row
  | [], _ => []
  | h :: hs, [] => (h, none) :: headerZip hs []
  | h :: hs, v :: vs => (h, some v) :: headerZip hs vs

/-- Parse the data records of a CSV file in order, as fast-csv with
headers:true does: a record with more fields than the header is an error
(aborting the stream); otherwise the record becomes a `Row`. -/
def parseRecords (header : List String) : List (List String) → Except Err (List Row)
  | [] => Except.ok []
  | r :: rs =>
    if header.length < r.length then
      Except.error (Err.csvError "column header mismatch")
    else
      match parseRecords header rs with
      | Except.error e => Except.error e
      | Except.ok rows => Except.ok (headerZip header r :: rows)

/-- Parse a whole CSV file (header line excluded from the data rows). -/
def parseCSV (f : CSVFile) : Except Err (List Row) :=
  parseRecords f.header f.records

/-- Declared column list of a store table; every column is NOT NULL
(`notNullable()` on every column in `setupDatabase`). -/
structure TableSchema where
  columns : List String
deriving Repr, DecidableEq

/-- A store table: its schema and its rows in insertion order. (The
auto-increment surrogate key `id` is determined by the position and is not
modelled separately.) -/
structure Table where
  schema : TableSchema
  rows : List Row
deriving Repr, DecidableEq

/-- The destination store: table name ↦ table, first-match lookup. -/
abbrev Store := List (String × Table)

/-- First-match lookup of a table by name. -/
def storeLookup : Store → String → Option Table
  | [], _ => none
  | (m, t) :: rest, n => if m = n then some t else storeLookup rest n

/-- Replace the first entry for `n` by the given table
(append it if absent). -/
def storeSet : Store → String → Table → Store
  | [], n, t => [(n, t)]
  | (m, u) :: rest, n, t =>
    if m = n then (n, t) :: rest else (m, u) :: storeSet rest n t

/-- `dropTableIfExists`: remove the entry for `n`; absence is not an
error. -/
def dropTable : Store → String → Store
  | [], _ => []
  | (m, u) :: rest, n => if m = n then rest else (m, u) :: dropTable rest n

/-- `createTable`: a fresh empty table with the given columns. -/
def createTable (st : Store) (n : String) (sch : TableSchema) : Store :=
  storeSet st n (Table.mk sch [])

/-- Value of column `c` in a parsed row; a key that is absent or mapped to
`none` reads as NULL on insert. -/
def rowLookup (row : Row) (c : String) : Option String :=
  match row.find? (fun p => p.1 = c) with
  | some p => p.2
  | none => none

/-- First declared column whose value in `row` would be NULL. -/
def rowMissingCol (cols : List String) (row : Row) : Option String :=
  cols.find? (fun c => (rowLookup row c).isNone)

/-- Insert one row: SQLite enforces NOT NULL on every declared column but
performs no value validation (type affinity), so any present string is
stored verbatim. -/
def insertRow (t : Table) (row : Row) : Except Err Table :=
  match rowMissingCol t.schema.columns row with
  | some c => Except.error (Err.notNullViolation c)
  | none => Except.ok (Table.mk t.schema (t.rows ++ [row]))

/-- One chunk insert statement: all rows of the chunk, atomically
(a failure inserts none of them). -/
def insertChunk (t : Table) : List Row → Except Err Table
  | [] => Except.ok t
  | r :: rs =>
    match insertRow t r with
    | Except.error e => Except.error e
    | Except.ok t2 => insertChunk t2 rs

/-- Structural helper for `chunks`: `fuel` bounds the recursion depth (it
is always called with `fuel` at least the list length, so the middle case
is never reached). -/
def chunksFuel (n : Nat) : Nat → List α → List (List α)
  | _, [] => []
  | 0, x :: xs => [x :: xs]
  | fuel + 1, x :: xs =>
    (x :: xs.take (n - 1)) :: chunksFuel n fuel (xs.drop (n - 1))

/-- Split a list into consecutive chunks of at most `n` elements
(at most `max n 1`: each chunk takes at least one element, so the
function is total even for `n = 0`; it is only used with `n = 100`). -/
def chunks (n : Nat) (l : List α) : List (List α) :=
  chunksFuel n l.length l

/-- `chunksFuel` does not depend on the fuel once it covers the list. -/
theorem chunksFuel_congr {n : Nat} :
    ∀ (f1 f2 : Nat) (l : List α), l.length ≤ f1 → l.length ≤ f2 →
      chunksFuel n f1 l = chunksFuel n f2 l := by
  intro f1
  induction f1 with
  | zero =>
    intro f2 l h1 h2
    cases l with
    | nil => cases f2 <;> rfl
    | cons x xs => simp at h1
  | succ f1 ih =>
    intro f2 l h1 h2
    cases l with
    | nil => cases f2 <;> rfl
    | cons x xs =>
      cases f2 with
      | zero => simp at h2
      | succ f2 =>
        simp only [chunksFuel]
        congr 1
        apply ih
        · have := List.length_drop (n - 1) xs
          simp at h1
          omega
        · have := List.length_drop (n - 1) xs
          simp at h2
          omega

theorem chunks_nil (n : Nat) : chunks n ([] : List α) = [] := rfl

theorem chunks_cons (n : Nat) (x : α) (xs : List α) :
    chunks n (x :: xs) =
      (x :: xs.take (n - 1)) :: chunks n (xs.drop (n - 1)) := by
  show chunksFuel n (xs.length + 1) (x :: xs) = _
  simp only [chunksFuel]
  congr 1
  apply chunksFuel_congr
  · have := List.length_drop (n - 1) xs
    omega
  · exact le_rfl

/-- Run the chunk statements in order; on the first failing chunk, keep the
table as of the previous chunk (the failing statement is atomic) and
report the error; later chunks are not attempted. -/
def insertChunks (t : Table) : List (List Row) → Table × Option Err
  | [] => (t, none)
  | c :: cs =>
    match insertChunk t c with
    | Except.error e => (t, some e)
    | Except.ok t2 => insertChunks t2 cs

/-- The chunk size `knex.batchInsert` is called with (source: the literal
`100` in `parseAndInsertCSV`). -/
def batchSize : Nat := 100

/-- `knex.batchInsert(tableName, rows, batchSize)`: insert the rows in
consecutive chunks of at most `batchSize`. -/
def batchInsert (t : Table) (rows : List Row) (size : Nat) : Table × Option Err :=
  insertChunks t (chunks size rows)

/-- The downloaded archive bytes, classified by how the extraction streams
react to them: a well-formed gzipped tar carrying a file tree, bytes on
which the gunzip stream errors, or bytes that gunzip but on which the tar
stream errors. -/
inductive ArchiveBytes where
  | wellFormed (files : Tree) : ArchiveBytes
  | badGzip (msg : String) : ArchiveBytes
  | badTar (msg : String) : ArchiveBytes
deriving Repr, DecidableEq

/-- What the configured download URL yields when fetched: either the HTTPS
connection fails (the "error" event on the client request, covering
unreachable hosts and dropped connections), or a response arrives with a
status code and a body. The source never inspects the status code. -/
inductive FetchOutcome where
  | connError : FetchOutcome
  | response (status : Nat) (body : ArchiveBytes) : FetchOutcome
deriving Repr, DecidableEq

/-- `downloadFile(url, dest)`. `prev` is the file previously at `dest`
(`fs.createWriteStream` truncates it at once). On a connection error the
source unlinks `dest` and rejects, so no file remains; on ANY response —
the status code is never checked — the body is piped to `dest` and the
promise resolves on the finish event. Returns (promise outcome, file at
`dest` afterwards). -/
def downloadFile (fo : FetchOutcome) (prev : Option ArchiveBytes) :
    POutcome × Option ArchiveBytes :=
  match fo, prev with
  | FetchOutcome.connError, _ => (POutcome.rejected Err.connError, none)
  | FetchOutcome.response _ body, _ => (POutcome.resolved, some body)

/-- `extractTarGz(archivePath, extractDir)` over the staged file and the
current extracted tree. The source pipes read stream → gunzip → tar and
attaches both the finish and the error listener to the LAST stream (tar)
only; `pipe` does not forward error events. Hence: a missing archive
(read-stream `ENOENT`) or a gunzip error crash the process with the
promise unsettled, while a tar error rejects the promise. Successful
extraction overlays the archive files onto the target directory, keeping
unrelated existing files. -/
def extractTarGz (staged : Option ArchiveBytes) (tree : Tree) : POutcome × Tree :=
  match staged with
  | none => (POutcome.crashed (Err.enoent "tmp/dump.tar.gz"), tree)
  | some (ArchiveBytes.wellFormed files) => (POutcome.resolved, files ++ tree)
  | some (ArchiveBytes.badGzip m) => (POutcome.crashed (Err.gunzipError m), tree)
  | some (ArchiveBytes.badTar m) => (POutcome.rejected (Err.tarError m), tree)

/-- Column list of the customers table created by `setupDatabase`
(every column `notNullable`). -/
def customersSchema : TableSchema :=
  TableSchema.mk ["Index", "Customer Id", "First Name", "Last Name", "Company",
    "City", "Country", "Phone 1", "Phone 2", "Email", "Subscription Date",
    "Website"]

/-- Column list of the organizations table created by `setupDatabase`
(every column `notNullable`). -/
def organizationsSchema : TableSchema :=
  TableSchema.mk ["Index", "Organization Id", "Name", "Website", "Country",
    "Description", "Founded", "Industry", "Number of employees"]

/-- The store DDL performed by `setupDatabase`: drop both tables if they
exist, then create both afresh with their fixed column lists. -/
def resetStore (st : Store) : Store :=
  createTable
    (createTable (dropTable (dropTable st "customers") "organizations")
      "customers" customersSchema)
    "organizations" organizationsSchema

/-- `setupDatabase()`. `dbErr` is the environment: a store-level DDL
failure (e.g. the SQLite file unreachable), in which case Knex rejects;
otherwise both tables are dropped and recreated. -/
def setupDatabase (dbErr : Option Err) (st : Store) : POutcome × Store :=
  match dbErr with
  | some e => (POutcome.rejected e, st)
  | none => (POutcome.resolved, resetStore st)

/-- `parseAndInsertCSV(filePath, tableName)`. The source pipes a read
stream into the fast-csv parser, pushes every parsed row into an in-memory
array, and only on the parser end event batch-inserts the whole array.
Error listeners sit on the parser stream (so parse errors reject) but NOT
on the read stream (so a missing file crashes with `ENOENT`, the promise
unsettled); a `batchInsert` failure is caught and rejects. Returns
(promise outcome, store afterwards). -/
def parseAndInsertCSV (tree : Tree) (store : Store) (filePath tableName : String) :
    POutcome × Store :=
  match lookupF tree filePath with
  | none => (POutcome.crashed (Err.enoent filePath), store)
  | some f =>
    match parseCSV f with
    | Except.error e => (POutcome.rejected e, store)
    | Except.ok rows =>
      match storeLookup store tableName with
      | none => (POutcome.rejected (Err.noSuchTable tableName), store)
      | some t =>
        match batchInsert t rows batchSize with
        | (t2, none) => (POutcome.resolved, storeSet store tableName t2)
        | (t2, some e) => (POutcome.rejected e, storeSet store tableName t2)

/-- Relative path of the customers CSV inside the extracted tree
(`path.join(extractDir, 'dump', 'customers.csv')`). -/
def customersCsvPath : String := "dump/customers.csv"

/-- Relative path of the organizations CSV inside the extracted tree
(`path.join(extractDir, 'dump', 'organizations.csv')`). -/
def organizationsCsvPath : String := "dump/organizations.csv"

/-- The whole state a pipeline run reads and writes: the environment
(`mkdirErr`, `remote`, `schemaErr` — what the filesystem, the network and
the store DDL will do) and the mutable artifacts (staged archive file,
extracted tree, destination store). -/
structure World where
  /-- Failure the three `ensureDirectoryExistsAsync` calls would hit
  (`none`: directories are created fine). -/
  mkdirErr : Option Err
  /-- What fetching the configured download URL yields. -/
  remote : FetchOutcome
  /-- Failure the `setupDatabase` DDL would hit (`none`: DDL succeeds). -/
  schemaErr : Option Err
  /-- The file at the staging archive path, if any. -/
  staged : Option ArchiveBytes
  /-- The extracted working tree. -/
  tree : Tree
  /-- The destination store. -/
  store : Store
deriving Repr, DecidableEq

/-- The five sequential stages of `processDataDump`, in source order. -/
inductive Stage where
  | dirs | fetch | extract | schema | loadCustomers | loadOrganizations
deriving Repr, DecidableEq

/-- The `ensureDirectoryExistsAsync` calls (lines 24–26 of the source):
`fsPromises.mkdir(recursive: true)`, rethrowing any non-`EEXIST` error. -/
def stageDirs (w : World) : POutcome × World :=
  match w.mkdirErr with
  | some e => (POutcome.rejected e, w)
  | none => (POutcome.resolved, w)

/-- Stage: `downloadFile(DUMP_DOWNLOAD_URL, archivePath)`. -/
def stageFetch (w : World) : POutcome × World :=
  match downloadFile w.remote w.staged with
  | (r, st) => (r, { w with staged := st })

/-- Stage: `extractTarGz(archivePath, extractDir)`. -/
def stageExtract (w : World) : POutcome × World :=
  match extractTarGz w.staged w.tree with
  | (r, tr) => (r, { w with tree := tr })

/-- Stage: `setupDatabase()`. -/
def stageSchema (w : World) : POutcome × World :=
  match setupDatabase w.schemaErr w.store with
  | (r, st) => (r, { w with store := st })

/-- Stage: `parseAndInsertCSV(customersCsvPath, 'customers')`. -/
def stageLoadCustomers (w : World) : POutcome × World :=
  match parseAndInsertCSV w.tree w.store customersCsvPath "customers" with
  | (r, st) => (r, { w with store := st })

/-- Stage: `parseAndInsertCSV(organizationsCsvPath, 'organizations')`. -/
def stageLoadOrganizations (w : World) : POutcome × World :=
  match parseAndInsertCSV w.tree w.store organizationsCsvPath "organizations" with
  | (r, st) => (r, { w with store := st })

/-- Run a list of named stages in order, as the sequential `await` chain of
`processDataDump` does: a stage is attempted only if every earlier stage
resolved; a rejection propagates out of the `async` function, and a crash
terminates the process, so in both cases no later stage runs. Returns the
trace of attempted stages with their outcomes, the outcome of the whole
run, and the final world. -/
def runStages : List (Stage × (World → POutcome × World)) → World →
    List (Stage × POutcome) × POutcome × World
  | [], w => ([], POutcome.resolved, w)
  | (s, f) :: rest, w =>
    match f w with
    | (POutcome.resolved, w2) =>
      match runStages rest w2 with
      | (tr, out, w3) => ((s, POutcome.resolved) :: tr, out, w3)
    | (POutcome.rejected e, w2) =>
      ([(s, POutcome.rejected e)], POutcome.rejected e, w2)
    | (POutcome.crashed e, w2) =>
      ([(s, POutcome.crashed e)], POutcome.crashed e, w2)

/-- The stages of `processDataDump` in source order. -/
def pipelineStages : List (Stage × (World → POutcome × World)) :=
  [(Stage.dirs, stageDirs), (Stage.fetch, stageFetch),
   (Stage.extract, stageExtract), (Stage.schema, stageSchema),
   (Stage.loadCustomers, stageLoadCustomers),
   (Stage.loadOrganizations, stageLoadOrganizations)]

/-- The canonical stage order. -/
def stageOrder : List Stage :=
  [Stage.dirs, Stage.fetch, Stage.extract, Stage.schema,
   Stage.loadCustomers, Stage.loadOrganizations]

/-- `processDataDump()` with its stage trace. -/
def processDataDumpT (w : World) : List (Stage × POutcome) × POutcome × World :=
  runStages pipelineStages w

/-- `processDataDump()`: outcome of the run and the final world. -/
def processDataDump (w : World) : POutcome × World :=
  match processDataDumpT w with
  | (_, out, w2) => (out, w2)

/-- Number of rows of the named table, if it exists. -/
def tableCount (st : Store) (n : String) : Option Nat :=
  (storeLookup st n).map (fun t => t.rows.length)

/-- Events of one `parseAndInsertCSV` call, in temporal order: one
data-event per parsed record (each pushes a row into the in-memory array),
then — only after the end event — one write per `batchInsert` chunk. -/
inductive LoadEvent where
  | rowParsed : LoadEvent
  | batchWrite (n : Nat) : LoadEvent
deriving Repr, DecidableEq

/-- The event trace of `parseAndInsertCSV` on a file whose records all
parse: all rows are pushed before any write occurs (lines 143–158 of the
source: `rows.push` on every data event, `db.batchInsert` on end). -/
def loaderEvents (f : CSVFile) : List LoadEvent :=
  f.records.map (fun _ => LoadEvent.rowParsed) ++
    (chunks batchSize (f.records.map (headerZip f.header))).map
      (fun c => LoadEvent.batchWrite c.length)

/-- Running peak of rows held in the in-memory array: a parse adds one row,
a batch write removes the written rows. -/
def peakBufferedGo : Nat → Nat → List LoadEvent → Nat
  | _, peak, [] => peak
  | cur, peak, LoadEvent.rowParsed :: rest =>
    peakBufferedGo (cur + 1) (max peak (cur + 1)) rest
  | cur, peak, LoadEvent.batchWrite n :: rest =>
    peakBufferedGo (cur - n) peak rest

/-- Peak number of parsed rows simultaneously buffered in memory during a
load. -/
def peakBuffered (evs : List LoadEvent) : Nat :=
  peakBufferedGo 0 0 evs

/-- `Modelled from the spec:` the specification calls a fetch "failed" when
the connection errors or the HTTP status is non-success (outside 2xx); the
source itself never inspects the status code, so this predicate follows
the wording of the specification, for comparison with `downloadFile`. -/
def isTransportFailure : FetchOutcome → Bool
  | FetchOutcome.connError => true
  | FetchOutcome.response status _ => decide (status < 200 ∨ 300 ≤ status)

/-! ## Helper lemmas about the store and tree association lists -/

theorem storeLookup_storeSet_self (st : Store) (n : String) (t : Table) :
    storeLookup (storeSet st n t) n = some t := by
  induction st with
  | nil => simp [storeSet, storeLookup]
  | cons e rest ih =>
    obtain ⟨m, u⟩ := e
    by_cases h : m = n <;> simp [storeSet, storeLookup, h, ih]

theorem storeLookup_storeSet_ne (st : Store) {m n : String} (t : Table)
    (h : m ≠ n) : storeLookup (storeSet st n t) m = storeLookup st m := by
  have h2 : ¬ n = m := fun hc => h hc.symm
  induction st with
  | nil => simp [storeSet, storeLookup, h2]
  | cons e rest ih =>
    obtain ⟨q, u⟩ := e
    by_cases hq : q = n
    · subst hq
      simp [storeSet, storeLookup, h2]
    · simp [storeSet, storeLookup, hq, ih]

theorem lookupF_append_some {xs : Tree} (ys : Tree) {p : String} {f : CSVFile}
    (h : lookupF xs p = some f) : lookupF (xs ++ ys) p = some f := by
  induction xs with
  | nil => simp [lookupF] at h
  | cons e rest ih =>
    obtain ⟨q, g⟩ := e
    by_cases hq : q = p <;> simp_all [lookupF]

theorem lookupF_append_none {xs : Tree} (ys : Tree) {p : String}
    (h : lookupF xs p = none) : lookupF (xs ++ ys) p = lookupF ys p := by
  induction xs with
  | nil => simp [lookupF]
  | cons e rest ih =>
    obtain ⟨q, g⟩ := e
    by_cases hq : q = p <;> simp_all [lookupF]

/-- Overlaying the same archive files twice reads the same as overlaying
them once (re-extraction over the previous tree). -/
theorem lookupF_overlay_idem (a t : Tree) (p : String) :
    lookupF (a ++ (a ++ t)) p = lookupF (a ++ t) p := by
  cases h : lookupF a p with
  | some f => rw [lookupF_append_some _ h, lookupF_append_some _ h]
  | none => rw [lookupF_append_none _ h, lookupF_append_none _ h]

/-! ## Helper lemmas about chunking and inserting -/

theorem chunks_flatten (n : Nat) (l : List α) : (chunks n l).flatten = l := by
  generalize hk : l.length = k
  induction k using Nat.strong_induction_on generalizing l with
  | _ k ih =>
    cases l with
    | nil => simp [chunks_nil]
    | cons x xs =>
      rw [chunks_cons]
      simp only [List.flatten_cons]
      rw [ih (xs.drop (n - 1)).length (by simp [← hk]; omega) _ rfl]
      simp [List.take_append_drop]

theorem chunks_length_le {n : Nat} {l c : List α}
    (hc : c ∈ chunks n l) : c.length ≤ max n 1 := by
  generalize hk : l.length = k
  induction k using Nat.strong_induction_on generalizing l c with
  | _ k ih =>
    cases l with
    | nil => simp [chunks_nil] at hc
    | cons x xs =>
      rw [chunks_cons] at hc
      rcases List.mem_cons.mp hc with h | h
      · subst h
        simp only [List.length_cons, List.length_take]
        omega
      · exact ih (xs.drop (n - 1)).length (by simp [← hk]; omega) h rfl

theorem chunks_of_short {n : Nat} {l : List α} (h0 : l ≠ [])
    (h : l.length ≤ n) : chunks n l = [l] := by
  cases l with
  | nil => exact absurd rfl h0
  | cons x xs =>
    rw [chunks_cons]
    have h1 : xs.take (n - 1) = xs := by
      apply List.take_of_length_le
      simp at h
      omega
    have h2 : xs.drop (n - 1) = [] := by
      apply List.drop_eq_nil_of_le
      simp at h
      omega
    rw [h1, h2]
    simp [chunks_nil]

theorem insertChunk_ok {t t2 : Table} {rs : List Row}
    (h : insertChunk t rs = Except.ok t2) :
    t2 = Table.mk t.schema (t.rows ++ rs) := by
  induction rs generalizing t with
  | nil =>
    simp [insertChunk] at h
    simp [← h]
  | cons r rest ih =>
    rw [insertChunk] at h
    cases hr : insertRow t r with
    | error e => rw [hr] at h; exact absurd h (by simp)
    | ok t3 =>
      rw [hr] at h
      rw [insertRow] at hr
      cases hm : rowMissingCol t.schema.columns r with
      | some c => rw [hm] at hr; exact absurd hr (by simp)
      | none =>
        rw [hm] at hr
        simp only [Except.ok.injEq] at hr
        subst hr
        simpa using ih h

theorem insertChunks_ok {t t2 : Table} {cs : List (List Row)}
    (h : insertChunks t cs = (t2, none)) :
    t2 = Table.mk t.schema (t.rows ++ cs.flatten) := by
  induction cs generalizing t with
  | nil =>
    simp [insertChunks] at h
    simp [← h]
  | cons c rest ih =>
    rw [insertChunks] at h
    cases hc : insertChunk t c with
    | error e => rw [hc] at h; exact absurd h (by simp)
    | ok t3 =>
      rw [hc] at h
      have h3 := insertChunk_ok hc
      subst h3
      simpa [List.append_assoc] using ih h

theorem batchInsert_ok {t t2 : Table} {rows : List Row} {n : Nat}
    (h : batchInsert t rows n = (t2, none)) :
    t2 = Table.mk t.schema (t.rows ++ rows) := by
  rw [batchInsert] at h
  have := insertChunks_ok h
  rwa [chunks_flatten] at this

/-! ## Helper lemmas about parsing -/

theorem parseRecords_ok {header : List String} {rs : List (List String)}
    {rows : List Row} (h : parseRecords header rs = Except.ok rows) :
    rows = rs.map (headerZip header) := by
  induction rs generalizing rows with
  | nil => simp [parseRecords] at h; simp [← h]
  | cons r rest ih =>
    rw [parseRecords] at h
    by_cases hl : header.length < r.length
    · simp [hl] at h
    · rw [if_neg hl] at h
      cases hr : parseRecords header rest with
      | error e => rw [hr] at h; exact absurd h (by simp)
      | ok rows2 =>
        rw [hr] at h
        simp only [Except.ok.injEq] at h
        simp [← h, ih hr]

theorem parseRecords_total {header : List String} {rs : List (List String)}
    (h : ∀ r ∈ rs, ¬ header.length < r.length) :
    parseRecords header rs = Except.ok (rs.map (headerZip header)) := by
  induction rs with
  | nil => simp [parseRecords]
  | cons r rest ih =>
    rw [parseRecords, if_neg (h r (by simp))]
    rw [ih (fun r hr => h r (by simp [hr]))]
    simp

theorem rowLookup_headerZip_isSome {header r : List String} {c : String}
    (hlen : r.length = header.length) (hc : c ∈ header) :
    (rowLookup (headerZip header r) c).isSome := by
  induction header generalizing r with
  | nil => simp at hc
  | cons h0 hs ih =>
    cases r with
    | nil => simp at hlen
    | cons v vs =>
      rw [headerZip]
      by_cases he : h0 = c
      · simp [rowLookup, he]
      · rcases List.mem_cons.mp hc with hce | hce
        · exact absurd hce.symm he
        · have := ih (by simpa using hlen) hce
          simpa [rowLookup, List.find?, he] using this

theorem insertChunk_total {t : Table} {rs : List Row}
    (h : ∀ r ∈ rs, rowMissingCol t.schema.columns r = none) :
    insertChunk t rs = Except.ok (Table.mk t.schema (t.rows ++ rs)) := by
  induction rs generalizing t with
  | nil => simp [insertChunk]
  | cons r rest ih =>
    rw [insertChunk, insertRow, h r (by simp)]
    have := ih (t := Table.mk t.schema (t.rows ++ [r]))
      (fun r hr => h r (by simp [hr]))
    simpa using this

theorem insertChunks_total {t : Table} {cs : List (List Row)}
    (h : ∀ c ∈ cs, ∀ r ∈ c, rowMissingCol t.schema.columns r = none) :
    insertChunks t cs = (Table.mk t.schema (t.rows ++ cs.flatten), none) := by
  induction cs generalizing t with
  | nil => simp [insertChunks]
  | cons c rest ih =>
    rw [insertChunks, insertChunk_total (h c (by simp))]
    have := ih (t := Table.mk t.schema (t.rows ++ c))
      (fun c2 hc2 r hr => h c2 (by simp [hc2]) r hr)
    simpa [List.append_assoc] using this

theorem batchInsert_total {t : Table} {rows : List Row} {n : Nat}
    (h : ∀ r ∈ rows, rowMissingCol t.schema.columns r = none) :
    batchInsert t rows n = (Table.mk t.schema (t.rows ++ rows), none) := by
  rw [batchInsert]
  have h2 : ∀ c ∈ chunks n rows, ∀ r ∈ c, rowMissingCol t.schema.columns r = none := by
    intro c hc r hr
    exact h r (by rw [← chunks_flatten n rows]; exact List.mem_flatten.mpr ⟨c, hc, hr⟩)
  rw [insertChunks_total h2, chunks_flatten]

theorem insertChunk_error {t : Table} {rs : List Row}
    (h : ∃ r ∈ rs, (rowMissingCol t.schema.columns r).isSome) :
    ∃ c, insertChunk t rs = Except.error (Err.notNullViolation c) := by
  induction rs generalizing t with
  | nil => simp at h
  | cons r rest ih =>
    cases hm : rowMissingCol t.schema.columns r with
    | some c =>
      refine ⟨c, ?_⟩
      rw [insertChunk, insertRow, hm]
    | none =>
      obtain ⟨r0, hr0, hsome⟩ := h
      rcases List.mem_cons.mp hr0 with he | he
      · subst he
        rw [hm] at hsome
        simp at hsome
      · rw [insertChunk, insertRow, hm]
        exact ih (t := Table.mk t.schema (t.rows ++ [r])) ⟨r0, he, hsome⟩

theorem rowMissingCol_none {cols header r : List String}
    (hcols : ∀ c ∈ cols, c ∈ header) (hlen : r.length = header.length) :
    rowMissingCol cols (headerZip header r) = none := by
  rw [rowMissingCol, List.find?_eq_none]
  intro c hc
  have := rowLookup_headerZip_isSome hlen (hcols c hc)
  simp [Option.isNone]
  cases hv : rowLookup (headerZip header r) c with
  | none => rw [hv] at this; simp at this
  | some v => simp

/-! ## Lemmas about the store reset and the loads -/

theorem storeLookup_resetStore_customers (st : Store) :
    storeLookup (resetStore st) "customers" = some (Table.mk customersSchema []) := by
  rw [resetStore, createTable, createTable]
  rw [storeLookup_storeSet_ne _ _ (by decide)]
  exact storeLookup_storeSet_self _ _ _

theorem storeLookup_resetStore_organizations (st : Store) :
    storeLookup (resetStore st) "organizations" =
      some (Table.mk organizationsSchema []) := by
  rw [resetStore, createTable]
  exact storeLookup_storeSet_self _ _ _

/-- Inversion of a resolved load: the file was present, every record
parsed, the table existed, and the store now holds all parsed rows
appended to it. -/
theorem load_resolved_inv {tree : Tree} {store st2 : Store} {p t : String}
    (h : parseAndInsertCSV tree store p t = (POutcome.resolved, st2)) :
    ∃ f tbl, lookupF tree p = some f ∧
      parseCSV f = Except.ok (f.records.map (headerZip f.header)) ∧
      storeLookup store t = some tbl ∧
      st2 = storeSet store t
        (Table.mk tbl.schema (tbl.rows ++ f.records.map (headerZip f.header))) := by
  cases hf : lookupF tree p with
  | none => simp [parseAndInsertCSV, hf] at h
  | some f =>
    cases hp : parseCSV f with
    | error e => simp [parseAndInsertCSV, hf, hp] at h
    | ok rows =>
      have hrows : rows = f.records.map (headerZip f.header) := by
        rw [parseCSV] at hp
        exact parseRecords_ok hp
      cases ht : storeLookup store t with
      | none => simp [parseAndInsertCSV, hf, hp, ht] at h
      | some tbl =>
        cases hbi : batchInsert tbl rows batchSize with
        | mk t2 oe =>
          cases oe with
          | none =>
            simp only [parseAndInsertCSV, hf, hp, ht, hbi,
              Prod.mk.injEq, true_and] at h
            refine ⟨f, tbl, rfl, by rw [hp, hrows], rfl, ?_⟩
            rw [← h, batchInsert_ok hbi, hrows]
          | some e => simp [parseAndInsertCSV, hf, hp, ht, hbi] at h

/-- A load touches no table other than its own. -/
theorem load_frame (tree : Tree) (store : Store) (p t t2 : String)
    (h : t2 ≠ t) :
    storeLookup (parseAndInsertCSV tree store p t).2 t2 = storeLookup store t2 := by
  cases hf : lookupF tree p with
  | none => simp [parseAndInsertCSV, hf]
  | some f =>
    cases hp : parseCSV f with
    | error e => simp [parseAndInsertCSV, hf, hp]
    | ok rows =>
      cases ht : storeLookup store t with
      | none => simp [parseAndInsertCSV, hf, hp, ht]
      | some tbl =>
        cases hbi : batchInsert tbl rows batchSize with
        | mk tb oe =>
          cases oe <;>
            simp only [parseAndInsertCSV, hf, hp, ht, hbi] <;>
            exact storeLookup_storeSet_ne _ _ h

/-- A load is determined, in outcome and in its own table, by the file at
its path and the prior contents of its own table. -/
theorem load_congr {tr1 tr2 : Tree} {s1 s2 : Store} {p t : String}
    (hT : lookupF tr1 p = lookupF tr2 p)
    (hS : storeLookup s1 t = storeLookup s2 t) :
    (parseAndInsertCSV tr1 s1 p t).1 = (parseAndInsertCSV tr2 s2 p t).1 ∧
      storeLookup (parseAndInsertCSV tr1 s1 p t).2 t =
        storeLookup (parseAndInsertCSV tr2 s2 p t).2 t := by
  cases hf : lookupF tr2 p with
  | none => simp [parseAndInsertCSV, hT, hf, hS]
  | some f =>
    cases hp : parseCSV f with
    | error e => simp [parseAndInsertCSV, hT, hf, hp, hS]
    | ok rows =>
      cases ht : storeLookup s2 t with
      | none => simp [parseAndInsertCSV, hT, hf, hp, hS, ht]
      | some tbl =>
        cases hbi : batchInsert tbl rows batchSize with
        | mk tb oe =>
          cases oe <;>
            simp [parseAndInsertCSV, hT, hf, hp, hS, ht, hbi,
              storeLookup_storeSet_self]

/-- A shape-correct file loads completely, whatever its field values: the
store performs no date/number validation, so every row is inserted
verbatim. Holds for any destination table, hence uniformly for both
record types. -/
theorem load_total {tree : Tree} {store : Store} {p tname : String}
    {f : CSVFile} {sch : TableSchema}
    (hf : lookupF tree p = some f)
    (ht : storeLookup store tname = some (Table.mk sch []))
    (hlen : ∀ r ∈ f.records, r.length = f.header.length)
    (hcols : ∀ c ∈ sch.columns, c ∈ f.header) :
    parseAndInsertCSV tree store p tname =
      (POutcome.resolved,
        storeSet store tname
          (Table.mk sch (f.records.map (headerZip f.header)))) := by
  have hp : parseCSV f = Except.ok (f.records.map (headerZip f.header)) := by
    rw [parseCSV]
    exact parseRecords_total (fun r hr => by rw [hlen r hr]; omega)
  have hok : ∀ row ∈ f.records.map (headerZip f.header),
      rowMissingCol sch.columns row = none := by
    intro row hrow
    obtain ⟨r, hr, hrow⟩ := List.mem_map.mp hrow
    subst hrow
    exact rowMissingCol_none hcols (hlen r hr)
  have hbi : batchInsert (Table.mk sch []) (f.records.map (headerZip f.header))
      batchSize =
      (Table.mk sch (f.records.map (headerZip f.header)), none) := by
    simpa using batchInsert_total (t := Table.mk sch []) hok
  simp only [parseAndInsertCSV, hf, hp, ht, hbi]

/-- A load over a small file (at most one chunk) in which some parsed row
leaves a required column NULL rejects as a whole with a NOT NULL store
error. -/
theorem load_rejects_of_missing {tree : Tree} {store : Store}
    {p tname : String} {f : CSVFile} {sch : TableSchema}
    (hf : lookupF tree p = some f)
    (ht : storeLookup store tname = some (Table.mk sch []))
    (hshort : ∀ r ∈ f.records, r.length ≤ f.header.length)
    (hcnt : f.records.length ≤ batchSize)
    (hmiss : ∃ r ∈ f.records,
      (rowMissingCol sch.columns (headerZip f.header r)).isSome) :
    ∃ c, (parseAndInsertCSV tree store p tname).1 =
      POutcome.rejected (Err.notNullViolation c) := by
  have hp : parseCSV f = Except.ok (f.records.map (headerZip f.header)) := by
    rw [parseCSV]
    exact parseRecords_total (fun r hr => by have := hshort r hr; omega)
  have hne : f.records ≠ [] := by
    obtain ⟨r, hr, _⟩ := hmiss
    exact List.ne_nil_of_mem hr
  have hchunks : chunks batchSize (f.records.map (headerZip f.header)) =
      [f.records.map (headerZip f.header)] := by
    apply chunks_of_short
    · simpa using hne
    · simpa using hcnt
  obtain ⟨c, hc⟩ := insertChunk_error (t := Table.mk sch [])
    (by
      obtain ⟨r, hr, hsome⟩ := hmiss
      exact ⟨headerZip f.header r, List.mem_map.mpr ⟨r, hr, rfl⟩, hsome⟩)
  refine ⟨c, ?_⟩
  simp only [parseAndInsertCSV, hf, hp, ht, batchInsert, hchunks,
    insertChunks, hc]

/-! ## Lemmas about the sequential orchestrator -/

theorem runStages_trace_take (l : List (Stage × (World → POutcome × World)))
    (w : World) :
    ∃ k, ((runStages l w).1).map Prod.fst = (l.map Prod.fst).take k := by
  induction l generalizing w with
  | nil => exact ⟨0, rfl⟩
  | cons sf rest ih =>
    obtain ⟨s, f⟩ := sf
    cases hf : f w with
    | mk r w2 =>
      cases r with
      | resolved =>
        obtain ⟨k, hk⟩ := ih w2
        rcases hr : runStages rest w2 with ⟨tr, out, w3⟩
        rw [hr] at hk
        refine ⟨k + 1, ?_⟩
        simp only [runStages, hf, hr, List.map_cons, List.take_succ_cons]
        simpa using hk
      | rejected e => exact ⟨1, by simp [runStages, hf]⟩
      | crashed e => exact ⟨1, by simp [runStages, hf]⟩

theorem runStages_dropLast_resolved
    (l : List (Stage × (World → POutcome × World))) (w : World) :
    ∀ pr ∈ ((runStages l w).1).dropLast, pr.2 = POutcome.resolved := by
  induction l generalizing w with
  | nil => intro pr hpr; simp [runStages] at hpr
  | cons sf rest ih =>
    obtain ⟨s, f⟩ := sf
    cases hf : f w with
    | mk r w2 =>
      cases r with
      | resolved =>
        rcases hr : runStages rest w2 with ⟨tr, out, w3⟩
        intro pr hpr
        simp only [runStages, hf, hr] at hpr
        have ihh := ih w2
        rw [hr] at ihh
        cases htr : tr with
        | nil =>
          rw [htr] at hpr
          simp at hpr
        | cons t0 tr2 =>
          rw [htr] at hpr
          rw [List.dropLast_cons₂] at hpr
          rcases List.mem_cons.mp hpr with he | he
          · rw [he]
          · exact ihh pr (htr ▸ he)
      | rejected e => intro pr hpr; simp [runStages, hf] at hpr
      | crashed e => intro pr hpr; simp [runStages, hf] at hpr

theorem runStages_fail_last
    (l : List (Stage × (World → POutcome × World))) (w : World)
    (h : (runStages l w).2.1 ≠ POutcome.resolved) :
    ∃ s, ((runStages l w).1).getLast? = some (s, (runStages l w).2.1) := by
  induction l generalizing w with
  | nil => exact absurd rfl h
  | cons sf rest ih =>
    obtain ⟨s, f⟩ := sf
    cases hf : f w with
    | mk r w2 =>
      cases r with
      | resolved =>
        rcases hr : runStages rest w2 with ⟨tr, out, w3⟩
        simp only [runStages, hf, hr] at h ⊢
        have h2 : (runStages rest w2).2.1 ≠ POutcome.resolved := by
          rw [hr]; exact h
        obtain ⟨s2, hs2⟩ := ih w2 h2
        rw [hr] at hs2
        cases htr : tr with
        | nil => rw [htr] at hs2; simp at hs2
        | cons t0 tr2 =>
          refine ⟨s2, ?_⟩
          rw [htr] at hs2
          rw [List.getLast?_cons_cons]
          exact hs2
      | rejected e => exact ⟨s, by simp [runStages, hf]⟩
      | crashed e => exact ⟨s, by simp [runStages, hf]⟩

theorem runStages_resolved_names
    (l : List (Stage × (World → POutcome × World))) (w : World)
    (h : (runStages l w).2.1 = POutcome.resolved) :
    ((runStages l w).1).map Prod.fst = l.map Prod.fst := by
  induction l generalizing w with
  | nil => rfl
  | cons sf rest ih =>
    obtain ⟨s, f⟩ := sf
    cases hf : f w with
    | mk r w2 =>
      cases r with
      | resolved =>
        rcases hr : runStages rest w2 with ⟨tr, out, w3⟩
        simp only [runStages, hf, hr] at h ⊢
        have := ih w2 (by rw [hr]; exact h)
        rw [hr] at this
        simpa using this
      | rejected e => simp [runStages, hf] at h
      | crashed e => simp [runStages, hf] at h

/-- The two loads as run from the post-schema state (proof-side composition
of the last two stages of `processDataDump`). -/
def runFromSchema (T : Tree) (R : Store) : POutcome × Store :=
  match parseAndInsertCSV T R customersCsvPath "customers" with
  | (POutcome.resolved, s1) =>
    parseAndInsertCSV T s1 organizationsCsvPath "organizations"
  | (r1, s1) => (r1, s1)

/-- A run over a benign environment (directories and DDL fine, the remote
serving a well-formed archive) reaches the schema stage deterministically
and then behaves as `runFromSchema` on the extracted tree and the reset
store. -/
theorem process_benign {w : World} {st : Nat} {a : Tree}
    (h1 : w.mkdirErr = none)
    (h2 : w.remote = FetchOutcome.response st (ArchiveBytes.wellFormed a))
    (h3 : w.schemaErr = none) :
    (processDataDump w).1 = (runFromSchema (a ++ w.tree) (resetStore w.store)).1 ∧
      (processDataDump w).2.store = (runFromSchema (a ++ w.tree) (resetStore w.store)).2 ∧
      (processDataDump w).2.tree = a ++ w.tree ∧
      (processDataDump w).2.mkdirErr = none ∧
      (processDataDump w).2.remote = w.remote ∧
      (processDataDump w).2.schemaErr = none := by
  rcases hL1 : parseAndInsertCSV (a ++ w.tree) (resetStore w.store)
    customersCsvPath "customers" with ⟨r1, s1⟩
  cases r1 with
  | resolved =>
    rcases hL2 : parseAndInsertCSV (a ++ w.tree) s1
      organizationsCsvPath "organizations" with ⟨r2, s2⟩
    cases r2 <;>
      simp [processDataDump, processDataDumpT, pipelineStages, runStages,
        stageDirs, stageFetch, stageExtract, stageSchema, stageLoadCustomers,
        stageLoadOrganizations, downloadFile, extractTarGz, setupDatabase,
        runFromSchema, h1, h2, h3, hL1, hL2]
  | rejected e =>
    simp [processDataDump, processDataDumpT, pipelineStages, runStages,
      stageDirs, stageFetch, stageExtract, stageSchema, stageLoadCustomers,
      stageLoadOrganizations, downloadFile, extractTarGz, setupDatabase,
      runFromSchema, h1, h2, h3, hL1]
  | crashed e =>
    simp [processDataDump, processDataDumpT, pipelineStages, runStages,
      stageDirs, stageFetch, stageExtract, stageSchema, stageLoadCustomers,
      stageLoadOrganizations, downloadFile, extractTarGz, setupDatabase,
      runFromSchema, h1, h2, h3, hL1]

/-- A resolved run presupposes a benign environment: directories were
created, the remote served a well-formed archive, and the DDL succeeded. -/
theorem resolved_env {w : World}
    (h : (processDataDump w).1 = POutcome.resolved) :
    w.mkdirErr = none ∧
      (∃ st a, w.remote = FetchOutcome.response st (ArchiveBytes.wellFormed a)) ∧
      w.schemaErr = none := by
  cases h1 : w.mkdirErr with
  | some e =>
    simp [processDataDump, processDataDumpT, pipelineStages, runStages,
      stageDirs, h1] at h
  | none =>
    cases h2 : w.remote with
    | connError =>
      simp [processDataDump, processDataDumpT, pipelineStages, runStages,
        stageDirs, stageFetch, downloadFile, h1, h2] at h
    | response st b =>
      cases b with
      | wellFormed a =>
        cases h3 : w.schemaErr with
        | some e =>
          simp [processDataDump, processDataDumpT, pipelineStages, runStages,
            stageDirs, stageFetch, stageExtract, stageSchema, downloadFile,
            extractTarGz, setupDatabase, h1, h2, h3] at h
        | none => exact ⟨rfl, ⟨st, a, rfl⟩, rfl⟩
      | badGzip m =>
        simp [processDataDump, processDataDumpT, pipelineStages, runStages,
          stageDirs, stageFetch, stageExtract, downloadFile, extractTarGz,
          h1, h2] at h
      | badTar m =>
        simp [processDataDump, processDataDumpT, pipelineStages, runStages,
          stageDirs, stageFetch, stageExtract, downloadFile, extractTarGz,
          h1, h2] at h

theorem runFromSchema_resolved_inv {T : Tree} {R : Store}
    (h : (runFromSchema T R).1 = POutcome.resolved) :
    ∃ s1, parseAndInsertCSV T R customersCsvPath "customers" =
        (POutcome.resolved, s1) ∧
      parseAndInsertCSV T s1 organizationsCsvPath "organizations" =
        (POutcome.resolved, (runFromSchema T R).2) := by
  rcases hL1 : parseAndInsertCSV T R customersCsvPath "customers" with ⟨r1, s1⟩
  cases r1 with
  | resolved =>
    rcases hL2 : parseAndInsertCSV T s1 organizationsCsvPath "organizations"
      with ⟨r2, s2⟩
    cases r2 with
    | resolved =>
      refine ⟨s1, rfl, ?_⟩
      rw [hL2]
      simp only [runFromSchema, hL1, hL2]
    | rejected e => simp [runFromSchema, hL1, hL2] at h
    | crashed e => simp [runFromSchema, hL1, hL2] at h
  | rejected e => simp [runFromSchema, hL1] at h
  | crashed e => simp [runFromSchema, hL1] at h

/-- After a resolved run, both tables hold exactly the parsed rows of their
source files, verbatim and in file order, on their fixed schemas. -/
theorem resolved_run_tables {w : World}
    (h : (processDataDump w).1 = POutcome.resolved) :
    ∃ fc fo,
      lookupF (processDataDump w).2.tree customersCsvPath = some fc ∧
      lookupF (processDataDump w).2.tree organizationsCsvPath = some fo ∧
      storeLookup (processDataDump w).2.store "customers" =
        some (Table.mk customersSchema (fc.records.map (headerZip fc.header))) ∧
      storeLookup (processDataDump w).2.store "organizations" =
        some (Table.mk organizationsSchema (fo.records.map (headerZip fo.header))) := by
  obtain ⟨h1, ⟨st, a, h2⟩, h3⟩ := resolved_env h
  obtain ⟨ho, hsd, htree, -, -, -⟩ := process_benign h1 h2 h3
  have hrf : (runFromSchema (a ++ w.tree) (resetStore w.store)).1 =
      POutcome.resolved := by
    rw [← ho]; exact h
  obtain ⟨s1, hL1, hL2⟩ := runFromSchema_resolved_inv hrf
  obtain ⟨fc, tblC, hfc, hpc, htc, hs1⟩ := load_resolved_inv hL1
  obtain ⟨fo, tblO, hfo, hpo, hto, hs2⟩ := load_resolved_inv hL2
  rw [storeLookup_resetStore_customers] at htc
  injection htc with htc
  subst htc
  rw [hs1, storeLookup_storeSet_ne _ _ (by decide),
    storeLookup_resetStore_organizations] at hto
  injection hto with hto
  subst hto
  refine ⟨fc, fo, ?_, ?_, ?_, ?_⟩
  · rw [htree]; exact hfc
  · rw [htree]; exact hfo
  · rw [hsd, hs2, storeLookup_storeSet_ne _ _ (by decide), hs1,
      storeLookup_storeSet_self]
    simp
  · rw [hsd, hs2, storeLookup_storeSet_self]
    simp

/-- The post-schema part of a run is determined, in outcome and in the two
tables, by the files at the two hard-coded paths and the initial contents
of the two tables. -/
theorem runFromSchema_congr (T1 T2 : Tree) (R1 R2 : Store)
    (hc : lookupF T1 customersCsvPath = lookupF T2 customersCsvPath)
    (hoo : lookupF T1 organizationsCsvPath = lookupF T2 organizationsCsvPath)
    (hsc : storeLookup R1 "customers" = storeLookup R2 "customers")
    (hso : storeLookup R1 "organizations" = storeLookup R2 "organizations") :
    (runFromSchema T1 R1).1 = (runFromSchema T2 R2).1 ∧
      storeLookup (runFromSchema T1 R1).2 "customers" =
        storeLookup (runFromSchema T2 R2).2 "customers" ∧
      storeLookup (runFromSchema T1 R1).2 "organizations" =
        storeLookup (runFromSchema T2 R2).2 "organizations" := by
  obtain ⟨hout1, hlook1⟩ :=
    load_congr (p := customersCsvPath) (t := "customers") hc hsc
  rcases hA : parseAndInsertCSV T1 R1 customersCsvPath "customers" with ⟨r1, s1⟩
  rcases hB : parseAndInsertCSV T2 R2 customersCsvPath "customers" with ⟨r1', s1'⟩
  rw [hA, hB] at hout1 hlook1
  have hr : r1 = r1' := hout1
  subst hr
  have hl : storeLookup s1 "customers" = storeLookup s1' "customers" := hlook1
  have hf1 : storeLookup s1 "organizations" = storeLookup R1 "organizations" := by
    have := load_frame T1 R1 customersCsvPath "customers" "organizations"
      (by decide)
    rw [hA] at this
    exact this
  have hf1b : storeLookup s1' "organizations" = storeLookup R2 "organizations" := by
    have := load_frame T2 R2 customersCsvPath "customers" "organizations"
      (by decide)
    rw [hB] at this
    exact this
  have hso2 : storeLookup s1 "organizations" = storeLookup s1' "organizations" := by
    rw [hf1, hf1b, hso]
  obtain ⟨hout2, hlook2⟩ :=
    load_congr (p := organizationsCsvPath) (t := "organizations") hoo hso2
  rcases hC : parseAndInsertCSV T1 s1 organizationsCsvPath "organizations"
    with ⟨r2, s2⟩
  rcases hD : parseAndInsertCSV T2 s1' organizationsCsvPath "organizations"
    with ⟨r2', s2'⟩
  rw [hC, hD] at hout2 hlook2
  have hr2 : r2 = r2' := hout2
  subst hr2
  have hl2 : storeLookup s2 "organizations" = storeLookup s2' "organizations" :=
    hlook2
  have hg1 : storeLookup s2 "customers" = storeLookup s1 "customers" := by
    have := load_frame T1 s1 organizationsCsvPath "organizations" "customers"
      (by decide)
    rw [hC] at this
    exact this
  have hg1b : storeLookup s2' "customers" = storeLookup s1' "customers" := by
    have := load_frame T2 s1' organizationsCsvPath "organizations" "customers"
      (by decide)
    rw [hD] at this
    exact this
  cases r1 with
  | resolved =>
    refine ⟨?_, ?_, ?_⟩
    · simp only [runFromSchema, hA, hB, hC, hD]
    · simp only [runFromSchema, hA, hB, hC, hD]
      rw [hg1, hg1b, hl]
    · simp only [runFromSchema, hA, hB, hC, hD]
      exact hl2
  | rejected e =>
    refine ⟨?_, ?_, ?_⟩
    · simp only [runFromSchema, hA, hB]
    · simp only [runFromSchema, hA, hB]
      exact hl
    · simp only [runFromSchema, hA, hB]
      exact hso2
  | crashed e =>
    refine ⟨?_, ?_, ?_⟩
    · simp only [runFromSchema, hA, hB]
    · simp only [runFromSchema, hA, hB]
      exact hl
    · simp only [runFromSchema, hA, hB]
      exact hso2

/-! ## Concrete inputs used by witnesses and counterexamples -/

/-- A customers CSV with a header line and zero data rows. -/
def c1FileCustomers : CSVFile :=
  CSVFile.mk customersSchema.columns []

/-- An organizations CSV with one complete data row. -/
def c1FileOrganizations : CSVFile :=
  CSVFile.mk organizationsSchema.columns
    [["1", "O1", "Acme", "acme.example", "IT", "retail goods", "1999",
      "retail", "12"]]

/-- A benign world whose archive holds both CSV files. -/
def c1World : World :=
  World.mk none
    (FetchOutcome.response 200 (ArchiveBytes.wellFormed
      [(customersCsvPath, c1FileCustomers),
       (organizationsCsvPath, c1FileOrganizations)]))
    none none [] []

/-- A world whose download URL is unreachable. -/
def c4World : World :=
  World.mk none FetchOutcome.connError none none [] []

/-- A customers CSV with one complete data row. -/
def c5FileCustomers : CSVFile :=
  CSVFile.mk customersSchema.columns
    [["1", "C1", "Ann", "Lee", "Acme", "Rome", "IT", "555-1", "555-2",
      "ann@acme.example", "2020-01-02", "ann.example"]]

/-- An organizations CSV with two complete data rows. -/
def c5FileOrganizations : CSVFile :=
  CSVFile.mk organizationsSchema.columns
    [["1", "O1", "Acme", "acme.example", "IT", "retail goods", "1999",
      "retail", "12"],
     ["2", "O2", "Birch", "birch.example", "FR", "timber", "2001",
      "lumber", "7"]]

/-- A benign world used to run the pipeline twice. -/
def c5World : World :=
  World.mk none
    (FetchOutcome.response 200 (ArchiveBytes.wellFormed
      [(customersCsvPath, c5FileCustomers),
       (organizationsCsvPath, c5FileOrganizations)]))
    none none [] []

/-- A CSV with one header column and 101 data rows. -/
def c6File : CSVFile :=
  CSVFile.mk ["Index"] (List.replicate 101 ["1"])

/-- A customers CSV whose single row has malformed Index and
Subscription Date fields (every field present). -/
def c7File : CSVFile :=
  CSVFile.mk customersSchema.columns
    [["abc", "C1", "Ann", "Lee", "Acme", "Rome", "IT", "555-1", "555-2",
      "ann@acme.example", "not-a-date", "ann.example"]]

/-- A tree holding only `c7File` at the customers path. -/
def c7Tree : Tree := [(customersCsvPath, c7File)]

/-- A store holding only a fresh customers table. -/
def c7Store : Store := [("customers", Table.mk customersSchema [])]

/-- An organizations CSV whose single complete row has malformed Founded
and employee-count fields. -/
def c7FileW : CSVFile :=
  CSVFile.mk organizationsSchema.columns
    [["x", "O1", "Acme", "acme.example", "IT", "retail goods", "not-a-year",
      "retail", "NaN"]]

/-- A tree holding only `c7FileW` at the organizations path. -/
def c7TreeW : Tree := [(organizationsCsvPath, c7FileW)]

/-- A store holding only a fresh organizations table. -/
def c7StoreW : Store := [("organizations", Table.mk organizationsSchema [])]

/-- A customers CSV whose single row stops after two fields, leaving ten
required columns NULL. -/
def c7FileM : CSVFile :=
  CSVFile.mk customersSchema.columns [["1", "C1"]]

/-- A tree holding only `c7FileM` at the customers path. -/
def c7TreeM : Tree := [(customersCsvPath, c7FileM)]

/-- A store holding only a fresh customers table. -/
def c7StoreM : Store := [("customers", Table.mk customersSchema [])]

/-- A customers CSV with two complete data rows. -/
def c8FileCustomers : CSVFile :=
  CSVFile.mk customersSchema.columns
    [["1", "C1", "Ann", "Lee", "Acme", "Rome", "IT", "555-1", "555-2",
      "ann@acme.example", "2020-01-02", "ann.example"],
     ["2", "C2", "Bob", "Kim", "Birch", "Oslo", "NO", "555-3", "555-4",
      "bob@birch.example", "2021-03-04", "bob.example"]]

/-- A benign world whose archive is missing the organizations CSV. -/
def c8World : World :=
  World.mk none
    (FetchOutcome.response 200 (ArchiveBytes.wellFormed
      [(customersCsvPath, c8FileCustomers)]))
    none none [] []

/-- A one-row batch used to witness the chunk-size bound. -/
def c9Rows : List Row := [[("Index", some "1")]]

/-- A customers CSV with two complete data rows in a fixed order. -/
def c10FileCustomers : CSVFile :=
  CSVFile.mk customersSchema.columns
    [["2", "C2", "Bob", "Kim", "Birch", "Oslo", "NO", "555-3", "555-4",
      "bob@birch.example", "2021-03-04", "bob.example"],
     ["1", "C1", "Ann", "Lee", "Acme", "Rome", "IT", "555-1", "555-2",
      "ann@acme.example", "2020-01-02", "ann.example"]]

/-- An organizations CSV with one data row whose Founded field is the raw
string a conversion would have changed. -/
def c10FileOrganizations : CSVFile :=
  CSVFile.mk organizationsSchema.columns
    [["1", "O1", "Acme", "acme.example", "IT", "retail goods", "01999",
      "retail", "012"]]

/-- A benign world whose archive holds both CSV files. -/
def c10World : World :=
  World.mk none
    (FetchOutcome.response 200 (ArchiveBytes.wellFormed
      [(customersCsvPath, c10FileCustomers),
       (organizationsCsvPath, c10FileOrganizations)]))
    none none [] []

/-! ## The claims -/

/-- **C1.** For every successful pipeline run, both destination tables
exist afterward and each contains exactly the number of data rows present
in its source CSV file with the header line excluded; in particular, a
source file with a header but zero data rows yields a created table with
zero rows rather than an error. -/
theorem c1_successful_run_row_counts {w : World}
    (h : (processDataDump w).1 = POutcome.resolved) :
    ∃ fc fo,
      lookupF (processDataDump w).2.tree customersCsvPath = some fc ∧
      lookupF (processDataDump w).2.tree organizationsCsvPath = some fo ∧
      tableCount (processDataDump w).2.store "customers" =
        some fc.records.length ∧
      tableCount (processDataDump w).2.store "organizations" =
        some fo.records.length := by
  obtain ⟨fc, fo, hfc, hfo, hc, ho⟩ := resolved_run_tables h
  refine ⟨fc, fo, hfc, hfo, ?_, ?_⟩
  · simp [tableCount, hc]
  · simp [tableCount, ho]

/-- **C1 witness**: a benign run over a header-only customers file and a
one-row organizations file resolves and yields tables with zero and one
rows. -/
theorem c1_successful_run_row_counts_witness :
    (processDataDump c1World).1 = POutcome.resolved ∧
    (∃ fc fo,
      lookupF (processDataDump c1World).2.tree customersCsvPath = some fc ∧
      lookupF (processDataDump c1World).2.tree organizationsCsvPath = some fo ∧
      tableCount (processDataDump c1World).2.store "customers" =
        some fc.records.length ∧
      tableCount (processDataDump c1World).2.store "organizations" =
        some fo.records.length) :=
  ⟨by decide, c1_successful_run_row_counts (by decide)⟩

/-- **C2 counterexample.** The claim says every transport-level failure —
including a non-success HTTP status — removes the destination file before
the error propagates. But the source never inspects the status code: a
404 response is treated as success, its body is written to the
destination, and the promise resolves, so a file remains after a fetch the
specification calls failed. -/
theorem c2_counterexample_status_not_checked :
    isTransportFailure
      (FetchOutcome.response 404 (ArchiveBytes.badGzip "error page")) = true ∧
    downloadFile
      (FetchOutcome.response 404 (ArchiveBytes.badGzip "error page")) none =
      (POutcome.resolved, some (ArchiveBytes.badGzip "error page")) := by
  exact ⟨by decide, rfl⟩

/-- **C2 (amended).** On a connection error the partially written
destination file is removed before the rejection propagates, so no file
remains at the staging destination path; a non-success HTTP status is not
detected as a failure — the response body is written to the destination
and the download resolves. -/
theorem c2_download_cleanup_amended :
    (∀ prev, downloadFile FetchOutcome.connError prev =
      (POutcome.rejected Err.connError, none)) ∧
    (∀ status body prev, downloadFile (FetchOutcome.response status body) prev =
      (POutcome.resolved, some body)) :=
  ⟨fun _ => rfl, fun _ _ _ => rfl⟩

/-- **C3 counterexample.** The claim says a failure of either the gunzip
stage or the tar stage rejects the returned promise with the underlying
error. But the error listener sits only on the tar stream, and `pipe` does
not forward error events: on a gunzip failure the promise neither resolves
nor rejects — the error is emitted unhandled (crashing the process) and
the promise never settles. -/
theorem c3_counterexample_gunzip_unsettled :
    extractTarGz (some (ArchiveBytes.badGzip "unexpected end of file")) [] =
      (POutcome.crashed (Err.gunzipError "unexpected end of file"), []) ∧
    POutcome.crashed (Err.gunzipError "unexpected end of file") ≠
      POutcome.rejected (Err.gunzipError "unexpected end of file") ∧
    POutcome.crashed (Err.gunzipError "unexpected end of file") ≠
      POutcome.resolved :=
  ⟨rfl, by decide, by decide⟩

/-- **C3 (amended).** If the tar unpack stage fails, the extraction
promise rejects with the underlying error; if the gzip decompression
stage fails, the error is emitted on a stream with no error listener, so
the promise never settles and the process is terminated by the unhandled
error. -/
theorem c3_extract_error_amended :
    (∀ m tree, extractTarGz (some (ArchiveBytes.badTar m)) tree =
      (POutcome.rejected (Err.tarError m), tree)) ∧
    (∀ m tree, extractTarGz (some (ArchiveBytes.badGzip m)) tree =
      (POutcome.crashed (Err.gunzipError m), tree)) :=
  ⟨fun _ _ => rfl, fun _ _ => rfl⟩

/-- **C4.** In every run of the orchestrator, the attempted stages form a
prefix of the canonical stage order; every attempted stage before the last
one resolved (so no stage executes after a failed stage); when the run
does not resolve, its outcome is exactly the outcome of the last attempted
stage (the run terminates carrying the originating error); and a resolved
run attempted all six stages. -/
theorem c4_no_stage_after_failure (w : World) :
    (∃ k, ((processDataDumpT w).1).map Prod.fst = stageOrder.take k) ∧
    (∀ pr ∈ ((processDataDumpT w).1).dropLast, pr.2 = POutcome.resolved) ∧
    ((processDataDumpT w).2.1 ≠ POutcome.resolved →
      ∃ s, ((processDataDumpT w).1).getLast? =
        some (s, (processDataDumpT w).2.1)) ∧
    ((processDataDumpT w).2.1 = POutcome.resolved →
      ((processDataDumpT w).1).map Prod.fst = stageOrder) := by
  have hnames : pipelineStages.map Prod.fst = stageOrder := rfl
  refine ⟨?_, ?_, ?_, ?_⟩
  · obtain ⟨k, hk⟩ := runStages_trace_take pipelineStages w
    exact ⟨k, by rw [← hnames]; exact hk⟩
  · exact runStages_dropLast_resolved pipelineStages w
  · exact runStages_fail_last pipelineStages w
  · intro h
    rw [← hnames]
    exact runStages_resolved_names pipelineStages w h

/-- **C4 witness**: on an unreachable URL the run rejects at the fetch
stage; the failing stage is the last attempted one, and the directory
stage before it resolved. -/
theorem c4_no_stage_after_failure_witness :
    (processDataDumpT c4World).2.1 ≠ POutcome.resolved ∧
    (∃ s, ((processDataDumpT c4World).1).getLast? =
      some (s, (processDataDumpT c4World).2.1)) ∧
    (Stage.dirs, POutcome.resolved) ∈ ((processDataDumpT c4World).1).dropLast ∧
    (Stage.dirs, POutcome.resolved).2 = POutcome.resolved :=
  ⟨by decide,
   (c4_no_stage_after_failure c4World).2.2.1 (by decide),
   by decide,
   (c4_no_stage_after_failure c4World).2.1 _ (by decide)⟩

/-- **C5.** Running the full pipeline twice in succession against the same
destination store yields the same final row counts in both tables as
running it once: the schema reset (drop-if-exists then create) makes the
run idempotent rather than additive. -/
theorem c5_rerun_idempotent {w : World}
    (h : (processDataDump w).1 = POutcome.resolved) :
    (processDataDump (processDataDump w).2).1 = POutcome.resolved ∧
      tableCount (processDataDump (processDataDump w).2).2.store "customers" =
        tableCount (processDataDump w).2.store "customers" ∧
      tableCount (processDataDump (processDataDump w).2).2.store "organizations" =
        tableCount (processDataDump w).2.store "organizations" := by
  obtain ⟨h1, ⟨st, a, h2⟩, h3⟩ := resolved_env h
  obtain ⟨ho, hsd, htree, hm1, hr1, hs1⟩ := process_benign h1 h2 h3
  have h2b : (processDataDump w).2.remote =
      FetchOutcome.response st (ArchiveBytes.wellFormed a) := by
    rw [hr1, h2]
  obtain ⟨ho2, hsd2, htree2, -, -, -⟩ :=
    process_benign (w := (processDataDump w).2) hm1 h2b hs1
  obtain ⟨hc1, hc2, hc3⟩ := runFromSchema_congr
    (a ++ (processDataDump w).2.tree) (a ++ w.tree)
    (resetStore (processDataDump w).2.store) (resetStore w.store)
    (by rw [htree]; exact lookupF_overlay_idem a w.tree customersCsvPath)
    (by rw [htree]; exact lookupF_overlay_idem a w.tree organizationsCsvPath)
    (by rw [storeLookup_resetStore_customers, storeLookup_resetStore_customers])
    (by rw [storeLookup_resetStore_organizations,
      storeLookup_resetStore_organizations])
  refine ⟨?_, ?_, ?_⟩
  · rw [ho2, hc1, ← ho]
    exact h
  · simp only [tableCount]
    rw [hsd2, hc2, hsd]
  · simp only [tableCount]
    rw [hsd2, hc3, hsd]

set_option maxRecDepth 8192 in
/-- **C5 witness**: a benign run resolves; rerunning from its final world
resolves again with the same row counts in both tables. -/
theorem c5_rerun_idempotent_witness :
    (processDataDump c5World).1 = POutcome.resolved ∧
    ((processDataDump (processDataDump c5World).2).1 = POutcome.resolved ∧
      tableCount (processDataDump (processDataDump c5World).2).2.store
        "customers" =
        tableCount (processDataDump c5World).2.store "customers" ∧
      tableCount (processDataDump (processDataDump c5World).2).2.store
        "organizations" =
        tableCount (processDataDump c5World).2.store "organizations") :=
  ⟨by decide, c5_rerun_idempotent (by decide)⟩

set_option maxRecDepth 8192 in
/-- **C6 (code bug).** The claim mandates streaming consumption: rows must
not all be materialized in memory before the first insert. The source
instead pushes every parsed row into an in-memory array on each data event
and calls `batchInsert` only on the end event: on a file with 101 data
rows, the peak number of rows buffered before the first write is 101,
exceeding the batch size of 100 that a streaming loader would respect. -/
theorem c6_loader_buffers_all_rows :
    peakBuffered (loaderEvents c6File) = 101 ∧
    batchSize = 100 ∧
    100 < peakBuffered (loaderEvents c6File) := by
  refine ⟨by decide, rfl, by decide⟩

/-- **C7 counterexample.** The claim says each malformed-field row either
fails the whole load with a `ParseError` naming it, or is skipped while
loading continues. Neither happens: on a customers file whose single row
has a malformed numeric Index and a malformed Subscription Date, the load
resolves, the table holds that one row, and the malformed date string is
stored verbatim — the row was neither failed on nor skipped. -/
theorem c7_counterexample_malformed_loaded :
    (parseAndInsertCSV c7Tree c7Store customersCsvPath "customers").1 =
      POutcome.resolved ∧
    tableCount (parseAndInsertCSV c7Tree c7Store customersCsvPath
      "customers").2 "customers" = some 1 ∧
    ((storeLookup (parseAndInsertCSV c7Tree c7Store customersCsvPath
        "customers").2 "customers").map
      (fun t => t.rows.map (fun r => rowLookup r "Subscription Date"))) =
      some [some "not-a-date"] := by
  refine ⟨by decide, by decide, by decide⟩

/-- **C7 (amended).** Both record types share the one loader, so whatever
policy holds is uniform; but the policy is neither documented option.
Field values are never validated: any file whose records all have exactly
as many fields as the header loads completely and verbatim, malformed
date/numeric strings included (no failure, no skipping). Only a row that
leaves a required column NULL aborts, and then the entire load rejects at
insert time with a store NOT NULL error, not a `ParseError` naming the
row. -/
theorem c7_row_policy_amended :
    (∀ (tree : Tree) (store : Store) (p tname : String) (f : CSVFile)
        (sch : TableSchema),
      lookupF tree p = some f →
      storeLookup store tname = some (Table.mk sch []) →
      (∀ r ∈ f.records, r.length = f.header.length) →
      (∀ c ∈ sch.columns, c ∈ f.header) →
      parseAndInsertCSV tree store p tname =
        (POutcome.resolved,
          storeSet store tname
            (Table.mk sch (f.records.map (headerZip f.header))))) ∧
    (∀ (tree : Tree) (store : Store) (p tname : String) (f : CSVFile)
        (sch : TableSchema),
      lookupF tree p = some f →
      storeLookup store tname = some (Table.mk sch []) →
      (∀ r ∈ f.records, r.length ≤ f.header.length) →
      f.records.length ≤ batchSize →
      (∃ r ∈ f.records,
        (rowMissingCol sch.columns (headerZip f.header r)).isSome) →
      ∃ c, (parseAndInsertCSV tree store p tname).1 =
        POutcome.rejected (Err.notNullViolation c)) :=
  ⟨fun _ _ _ _ _ _ hf ht hlen hcols => load_total hf ht hlen hcols,
   fun _ _ _ _ _ _ hf ht hshort hcnt hmiss =>
     load_rejects_of_missing hf ht hshort hcnt hmiss⟩

/-- **C7 witness**: an organizations row with malformed numeric fields
loads verbatim, and a customers row missing ten required fields makes the
whole load reject with a NOT NULL error. -/
theorem c7_row_policy_amended_witness :
    (parseAndInsertCSV c7TreeW c7StoreW organizationsCsvPath "organizations" =
      (POutcome.resolved,
        storeSet c7StoreW "organizations"
          (Table.mk organizationsSchema
            (c7FileW.records.map (headerZip c7FileW.header))))) ∧
    (∃ c, (parseAndInsertCSV c7TreeM c7StoreM customersCsvPath
        "customers").1 = POutcome.rejected (Err.notNullViolation c)) :=
  ⟨c7_row_policy_amended.1 c7TreeW c7StoreW organizationsCsvPath
      "organizations" c7FileW organizationsSchema
      (by decide) (by decide) (by decide) (by decide),
   c7_row_policy_amended.2 c7TreeM c7StoreM customersCsvPath
      "customers" c7FileM customersSchema
      (by decide) (by decide) (by decide) (by decide) (by decide)⟩

/-- **C8.** If the extracted archive is missing the organizations CSV at
its hard-coded relative path, the run fails carrying an `ENOENT` error
identifying that missing path, and the customers table as populated by the
earlier completed load is left unchanged by this later failure. (The
failure surfaces as an unhandled read-stream error that terminates the
process; the promise itself never settles.) -/
theorem c8_missing_orgs_file {w : World} {st : Nat} {a : Tree}
    (h1 : w.mkdirErr = none)
    (h2 : w.remote = FetchOutcome.response st (ArchiveBytes.wellFormed a))
    (h3 : w.schemaErr = none)
    (h4 : lookupF (a ++ w.tree) organizationsCsvPath = none)
    (h5 : (parseAndInsertCSV (a ++ w.tree) (resetStore w.store)
      customersCsvPath "customers").1 = POutcome.resolved) :
    (processDataDump w).1 =
      POutcome.crashed (Err.enoent organizationsCsvPath) ∧
    storeLookup (processDataDump w).2.store "customers" =
      storeLookup (parseAndInsertCSV (a ++ w.tree) (resetStore w.store)
        customersCsvPath "customers").2 "customers" := by
  obtain ⟨ho, hsd, htree, -, -, -⟩ := process_benign h1 h2 h3
  rcases hL1 : parseAndInsertCSV (a ++ w.tree) (resetStore w.store)
    customersCsvPath "customers" with ⟨r1, s1⟩
  rw [hL1] at h5
  have hr1 : r1 = POutcome.resolved := h5
  subst hr1
  have hL2 : parseAndInsertCSV (a ++ w.tree) s1 organizationsCsvPath
      "organizations" =
      (POutcome.crashed (Err.enoent organizationsCsvPath), s1) := by
    simp only [parseAndInsertCSV, h4]
  constructor
  · rw [ho]
    simp only [runFromSchema, hL1, hL2]
  · rw [hsd]
    simp only [runFromSchema, hL1, hL2]

/-- **C8 witness**: an archive holding only a two-row customers file makes
the run fail with `ENOENT` on the organizations path while the customers
table keeps the two loaded rows. -/
theorem c8_missing_orgs_file_witness :
    ((processDataDump c8World).1 =
      POutcome.crashed (Err.enoent organizationsCsvPath) ∧
    storeLookup (processDataDump c8World).2.store "customers" =
      storeLookup (parseAndInsertCSV
        ([(customersCsvPath, c8FileCustomers)] ++ ([] : Tree))
        (resetStore ([] : Store)) customersCsvPath "customers").2
        "customers") ∧
    tableCount (processDataDump c8World).2.store "customers" = some 2 :=
  ⟨c8_missing_orgs_file rfl rfl rfl (by decide) (by decide), by decide⟩

/-- **C9.** For every load, parsed rows are written in fixed-size batches:
`batchInsert` issues exactly the `chunks batchSize` chunk statements, and
every such chunk holds at most 100 rows (`batchSize = 100`). -/
theorem c9_batch_size_bound (t : Table) (rows : List Row) {c : List Row}
    (hc : c ∈ chunks batchSize rows) :
    batchInsert t rows batchSize = insertChunks t (chunks batchSize rows) ∧
    c.length ≤ 100 := by
  refine ⟨rfl, ?_⟩
  have := chunks_length_le hc
  simpa [batchSize] using this

/-- **C9 witness**: a one-row load forms a single one-row chunk, within
the bound. -/
theorem c9_batch_size_bound_witness :
    c9Rows ∈ chunks batchSize c9Rows ∧
    (batchInsert (Table.mk customersSchema []) c9Rows batchSize =
      insertChunks (Table.mk customersSchema []) (chunks batchSize c9Rows) ∧
      c9Rows.length ≤ 100) :=
  ⟨by decide, c9_batch_size_bound (Table.mk customersSchema []) c9Rows
    (by decide)⟩

/-- **C10.** For every successful run, each table holds exactly the parsed
rows of its source file: every header column name is mapped to the raw
string field taken from the file — the Subscription Date, Founded and
employee-count values are stored as unconverted strings — and the rows
appear in the order they occupy in the file (on the fixed schemas). -/
theorem c10_verbatim_rows_in_order {w : World}
    (h : (processDataDump w).1 = POutcome.resolved) :
    ∃ fc fo,
      lookupF (processDataDump w).2.tree customersCsvPath = some fc ∧
      lookupF (processDataDump w).2.tree organizationsCsvPath = some fo ∧
      storeLookup (processDataDump w).2.store "customers" =
        some (Table.mk customersSchema
          (fc.records.map (headerZip fc.header))) ∧
      storeLookup (processDataDump w).2.store "organizations" =
        some (Table.mk organizationsSchema
          (fo.records.map (headerZip fo.header))) :=
  resolved_run_tables h

/-- **C10 witness**: a benign run stores the two customers rows verbatim
in file order and keeps the organizations Founded field as the raw string
"01999". -/
theorem c10_verbatim_rows_in_order_witness :
    (processDataDump c10World).1 = POutcome.resolved ∧
    (∃ fc fo,
      lookupF (processDataDump c10World).2.tree customersCsvPath = some fc ∧
      lookupF (processDataDump c10World).2.tree organizationsCsvPath =
        some fo ∧
      storeLookup (processDataDump c10World).2.store "customers" =
        some (Table.mk customersSchema
          (fc.records.map (headerZip fc.header))) ∧
      storeLookup (processDataDump c10World).2.store "organizations" =
        some (Table.mk organizationsSchema
          (fo.records.map (headerZip fo.header)))) :=
  ⟨by decide, c10_verbatim_rows_in_order (by decide)⟩

end Pipeline
